import Mathlib

/-!
# Verification of the `tabby-schema` DAO translation layer

Shallow embedding of `ee/tabby-schema/src/dao.rs`: the external-identifier
codec wrappers (`AsID` / `AsRowid`), the `DbEnum` string round-trip registry,
the record translators (invitation, settings, integration, user event), and
the attachment-document conversions between the storage, retrieval and
thread-facing shapes.

Machine integers are modelled as `Int` (for `i64` / `i32`) and `Nat`
(for `u64` / `usize`), with the Rust `as` casts made explicit as wrapping
functions.  Strings of the Rust code are Lean `String`s; byte vectors are
`List Nat`.
-/

deriving instance DecidableEq for Except

namespace TabbySchema

/-! ## Integer casts (Rust `as` semantics) -/

/-- Rust `x as u64` for `x : i64` (two's complement reinterpretation). -/
def i64AsU64 (x : Int) : Nat := (x % (2 : Int) ^ 64).toNat

/-- Rust `n as i64` for `n : u64` (two's complement reinterpretation). -/
def u64AsI64 (n : Nat) : Int :=
  if n < 2 ^ 63 then (n : Int) else (n : Int) - 2 ^ 64

/-- Rust `x as i32` for `x : i64`: truncation to the low 32 bits,
reinterpreted as a two's-complement 32-bit value. -/
def i64AsI32 (x : Int) : Int :=
  if x % (2 : Int) ^ 32 < 2 ^ 31 then x % (2 : Int) ^ 32
  else x % (2 : Int) ^ 32 - 2 ^ 32

/-- Rust `x as i32` for `x : usize` (64-bit): truncation to the low 32 bits,
reinterpreted as two's complement. -/
def usizeAsI32 (x : Nat) : Int :=
  if x % 2 ^ 32 < 2 ^ 31 then ((x % 2 ^ 32 : Nat) : Int)
  else ((x % 2 ^ 32 : Nat) : Int) - 2 ^ 32

/-- Rust `x as usize` for `x : i32` on a 64-bit target: sign extension to
64 bits, reinterpreted as unsigned. -/
def i32AsUsize (x : Int) : Nat := (x % (2 : Int) ^ 64).toNat

/-! ## The identifier codec

Modelled from the spec: the `hash_ids` crate backing the process-wide
`HASHER` instance (`HashIds::builder().with_salt("tabby-id-serializer")
.with_min_length(6).finish()`) is an external dependency whose source is not
part of this repository.  The spec characterises it by its contract only:
`encode` is a total deterministic injection from number sequences to string
tokens, and `decode` is its exact partial inverse — it recovers exactly the
encoded numbers and fails (`none`) on every string that `encode` cannot
produce.  The model below realises that contract with a concrete executable
codec (a run-length token alphabet); the obfuscation, salt and minimum
length of the real crate are not modelled, since no claim depends on them. -/

/-- Modelled from the spec: `HashIds::encode` — deterministic total encoding
of a sequence of `u64` values into a token (here: each number `n` becomes a
run of `n` `'x'` characters closed by `'.'`). -/
def hashIdsEncode : List Nat → List Char
  | [] => []
  | n :: rest => List.replicate n 'x' ++ '.' :: hashIdsEncode rest

/-- Helper for `hashIdsDecode`: parses runs of `'x'` closed by `'.'`,
carrying the length of the run read so far. -/
def hashIdsDecodeAux : List Char → Nat → Option (List Nat)
  | [], 0 => some []
  | [], _ + 1 => none
  | c :: rest, acc =>
    if c = 'x' then hashIdsDecodeAux rest (acc + 1)
    else if c = '.' then (hashIdsDecodeAux rest 0).map (fun l => acc :: l)
    else none

/-- Modelled from the spec: `HashIds::decode` — returns the encoded numbers
for a token produced by `hashIdsEncode` and `none` for every other string. -/
def hashIdsDecode (t : List Char) : Option (List Nat) :=
  hashIdsDecodeAux t 0

/-- `CoreError` (only the variant this layer produces). -/
inductive CoreError where
  | InvalidID
deriving DecidableEq, Repr

/-- `impl AsID for i64`: `juniper::ID::new(HASHER.encode(&[*self as u64]))`.
The `juniper::ID` newtype over `String` is modelled as `String`. -/
def asId (x : Int) : String :=
  String.mk (hashIdsEncode [i64AsU64 x])

/-- `impl AsID for i32`: `(*self as i32 value as i64).as_id()` — the
`i32 → i64` cast is value-preserving, so on our `Int` model it is `asId`
itself; kept as its own definition to mirror the source impl. -/
def i32AsId (x : Int) : String := asId x

/-- `impl AsRowid for juniper::ID`:
`HASHER.decode(self).and_then(|x| x.first().map(|i| *i as i64)).ok_or(CoreError::InvalidID)`. -/
def asRowid (s : String) : Except CoreError Int :=
  match (hashIdsDecode s.data).bind (fun x => x.head?.map u64AsI64) with
  | some v => Except.ok v
  | none => Except.error CoreError.InvalidID

/-! ## The `DbEnum` registry

One inductive per enum kind, with `as_enum_str` / `from_enum_str` translated
from the `impl DbEnum for …` blocks.  `from_enum_str` returns
`Except String E`, the error being the `bail!` message of the source
(`anyhow::Error` carrying that message). -/

/-- `user_event::EventKind`. -/
inductive EventKind where
  | Completion
  | ChatCompletion
  | Select
  | View
  | Dismiss
deriving DecidableEq, Repr

def EventKind.as_enum_str : EventKind → String
  | .Completion => "completion"
  | .ChatCompletion => "chat_completion"
  | .Select => "select"
  | .View => "view"
  | .Dismiss => "dismiss"

def EventKind.from_enum_str (s : String) : Except String EventKind :=
  if s = "completion" then Except.ok EventKind.Completion
  else if s = "chat_completion" then Except.ok EventKind.ChatCompletion
  else if s = "select" then Except.ok EventKind.Select
  else if s = "view" then Except.ok EventKind.View
  else if s = "dismiss" then Except.ok EventKind.Dismiss
  else Except.error (s ++ " is not a valid value for EventKind")

/-- `integration::IntegrationKind`. -/
inductive IntegrationKind where
  | Github
  | Gitlab
  | GithubSelfHosted
  | GitlabSelfHosted
deriving DecidableEq, Repr

def IntegrationKind.as_enum_str : IntegrationKind → String
  | .Github => "github"
  | .Gitlab => "gitlab"
  | .GithubSelfHosted => "github_self_hosted"
  | .GitlabSelfHosted => "gitlab_self_hosted"

def IntegrationKind.from_enum_str (s : String) : Except String IntegrationKind :=
  if s = "github" then Except.ok IntegrationKind.Github
  else if s = "gitlab" then Except.ok IntegrationKind.Gitlab
  else if s = "github_self_hosted" then Except.ok IntegrationKind.GithubSelfHosted
  else if s = "gitlab_self_hosted" then Except.ok IntegrationKind.GitlabSelfHosted
  else Except.error (s ++ " is not a valid value for ProviderKind")

/-- `email::Encryption` (mail-transport encryption). -/
inductive Encryption where
  | StartTls
  | SslTls
  | None
deriving DecidableEq, Repr

def Encryption.as_enum_str : Encryption → String
  | .StartTls => "starttls"
  | .SslTls => "ssltls"
  | .None => "none"

def Encryption.from_enum_str (s : String) : Except String Encryption :=
  if s = "starttls" then Except.ok Encryption.StartTls
  else if s = "ssltls" then Except.ok Encryption.SslTls
  else if s = "none" then Except.ok Encryption.None
  else Except.error (s ++ " is not a valid value for Encryption")

/-- `auth::OAuthProvider`. -/
inductive OAuthProvider where
  | Github
  | Google
  | Gitlab
deriving DecidableEq, Repr

def OAuthProvider.as_enum_str : OAuthProvider → String
  | .Google => "google"
  | .Github => "github"
  | .Gitlab => "gitlab"

def OAuthProvider.from_enum_str (s : String) : Except String OAuthProvider :=
  if s = "github" then Except.ok OAuthProvider.Github
  else if s = "google" then Except.ok OAuthProvider.Google
  else if s = "gitlab" then Except.ok OAuthProvider.Gitlab
  else Except.error "Invalid OAuth credential type"

/-- `auth::LdapEncryptionKind` (directory encryption). -/
inductive LdapEncryptionKind where
  | None
  | StartTLS
  | LDAPS
deriving DecidableEq, Repr

def LdapEncryptionKind.as_enum_str : LdapEncryptionKind → String
  | .None => "none"
  | .StartTLS => "starttls"
  | .LDAPS => "ldaps"

def LdapEncryptionKind.from_enum_str (s : String) : Except String LdapEncryptionKind :=
  if s = "none" then Except.ok LdapEncryptionKind.None
  else if s = "starttls" then Except.ok LdapEncryptionKind.StartTLS
  else if s = "ldaps" then Except.ok LdapEncryptionKind.LDAPS
  else Except.error "Invalid Ldap encryption kind"

/-- `email::AuthMethod` (mail auth method). -/
inductive AuthMethod where
  | None
  | Plain
  | Login
deriving DecidableEq, Repr

def AuthMethod.as_enum_str : AuthMethod → String
  | .None => "none"
  | .Plain => "plain"
  | .Login => "login"

def AuthMethod.from_enum_str (s : String) : Except String AuthMethod :=
  if s = "none" then Except.ok AuthMethod.None
  else if s = "plain" then Except.ok AuthMethod.Plain
  else if s = "login" then Except.ok AuthMethod.Login
  else Except.error (s ++ " is not a valid value for AuthMethod")

/-- `thread::Role` (message role). -/
inductive Role where
  | Assistant
  | User
deriving DecidableEq, Repr

def Role.as_enum_str : Role → String
  | .Assistant => "assistant"
  | .User => "user"

def Role.from_enum_str (s : String) : Except String Role :=
  if s = "assistant" then Except.ok Role.Assistant
  else if s = "user" then Except.ok Role.User
  else Except.error (s ++ " is not a valid value for thread::Role")

/-- `notification::NotificationRecipient`. -/
inductive NotificationRecipient where
  | Admin
  | AllUser
deriving DecidableEq, Repr

def NotificationRecipient.as_enum_str : NotificationRecipient → String
  | .Admin => "admin"
  | .AllUser => "all_user"

def NotificationRecipient.from_enum_str (s : String) : Except String NotificationRecipient :=
  if s = "admin" then Except.ok NotificationRecipient.Admin
  else if s = "all_user" then Except.ok NotificationRecipient.AllUser
  else Except.error (s ++ " is not a valid value for NotificationKind")

/-! ## Record translators

The `tabby_db` row shapes are declared outside this crate; their fields are
modelled exactly as this file's translators consume them (fields the
translators never touch are irrelevant to every claim and omitted).
Timestamps (`DateTime<Utc>`), copied verbatim by every translator, are
modelled as `Int`. -/

/-- Error kinds a fallible translator can surface (`anyhow::Error` in the
source, distinguished here by the spec's taxonomy: an enum-registry parse
failure carrying the `bail!` message, or a UTF-8 decoding failure). -/
inductive DaoError where
  | invalidEnumValue (msg : String)
  | encodingFailure
deriving DecidableEq, Repr

/-- `tabby_db::InvitationDAO` (fields used by the translator). -/
structure InvitationDAO where
  id : Int
  email : String
  code : String
  created_at : Int
deriving DecidableEq, Repr

/-- `auth::Invitation`. -/
structure Invitation where
  id : String
  email : String
  code : String
  created_at : Int
deriving DecidableEq, Repr

/-- `impl From<InvitationDAO> for auth::Invitation`: note the source encodes
`(val.id as i32).as_id()`, casting the `i64` row id through `i32`. -/
def invitationOfInvitationDAO (val : InvitationDAO) : Invitation :=
  { id := i32AsId (i64AsI32 val.id)
    email := val.email
    code := val.code
    created_at := val.created_at }

/-- `tabby_db::ServerSettingDAO` (fields used by the two projections).
`security_allowed_register_domain_list()` is a row accessor declared in
`tabby_db`; modelled from the spec as the row's domain list, which the
translator copies (`.map(|s| s.to_owned()).collect()`). -/
structure ServerSettingDAO where
  security_allowed_register_domain_list : List String
  security_disable_client_side_telemetry : Bool
  security_disable_password_login : Bool
  network_external_url : String
deriving DecidableEq, Repr

/-- `setting::SecuritySetting`. -/
structure SecuritySetting where
  allowed_register_domain_list : List String
  disable_client_side_telemetry : Bool
  disable_password_login : Bool
deriving DecidableEq, Repr

/-- `setting::NetworkSetting`. -/
structure NetworkSetting where
  external_url : String
deriving DecidableEq, Repr

/-- `impl From<ServerSettingDAO> for SecuritySetting`. -/
def securitySettingOfServerSettingDAO (value : ServerSettingDAO) : SecuritySetting :=
  { allowed_register_domain_list := value.security_allowed_register_domain_list
    disable_client_side_telemetry := value.security_disable_client_side_telemetry
    disable_password_login := value.security_disable_password_login }

/-- `impl From<ServerSettingDAO> for NetworkSetting`. -/
def networkSettingOfServerSettingDAO (value : ServerSettingDAO) : NetworkSetting :=
  { external_url := value.network_external_url }

/-- `integration::IntegrationStatus`. -/
inductive IntegrationStatus where
  | Ready
  | Pending
  | Failed
deriving DecidableEq, Repr

/-- `tabby_db::IntegrationDAO` (fields used by the translator). -/
structure IntegrationDAO where
  id : Int
  kind : String
  display_name : String
  access_token : String
  api_base : Option String
  created_at : Int
  updated_at : Int
  synced : Bool
  error : Option String
deriving DecidableEq, Repr

/-- `integration::Integration`. -/
structure Integration where
  id : String
  kind : IntegrationKind
  display_name : String
  access_token : String
  api_base : Option String
  created_at : Int
  updated_at : Int
  status : IntegrationStatus
  message : Option String
deriving DecidableEq, Repr

/-- `impl TryFrom<IntegrationDAO> for Integration`. -/
def integrationOfIntegrationDAO (value : IntegrationDAO) : Except DaoError Integration :=
  let status :=
    if value.synced && value.error.isNone then IntegrationStatus.Ready
    else if value.error.isSome then IntegrationStatus.Failed
    else IntegrationStatus.Pending
  match IntegrationKind.from_enum_str value.kind with
  | Except.error m => Except.error (DaoError.invalidEnumValue m)
  | Except.ok kind =>
      Except.ok
        { id := asId value.id
          kind := kind
          display_name := value.display_name
          access_token := value.access_token
          api_base := value.api_base
          created_at := value.created_at
          updated_at := value.updated_at
          status := status
          message := value.error }

/-! ## UTF-8 (Rust `String::from_utf8`)

`String::from_utf8` validates the byte vector against UTF-8 (RFC 3629:
two-byte leads `C2..DF`, `E0` requiring `A0..BF`, `ED` requiring `80..9F`
— excluding surrogates —, `F0` requiring `90..BF`, `F4` requiring `80..8F`,
leads `F5..` rejected) and fails on any invalid byte, never substituting
replacement characters.  Bytes are `Nat` (< 256 where meaningful); the
decoded text is the list of Unicode scalar values. -/

/-- A Unicode scalar value: below `0x110000` and not a surrogate. -/
def ValidScalar (c : Nat) : Prop := c < 0x110000 ∧ ¬(0xD800 ≤ c ∧ c < 0xE000)

instance (c : Nat) : Decidable (ValidScalar c) := by
  unfold ValidScalar
  infer_instance

/-- Decodes one UTF-8 sequence from the front of the byte list, returning
the scalar value and the remaining bytes; `none` on any invalid sequence. -/
def decodeOne : List Nat → Option (Nat × List Nat)
  | [] => none
  | b0 :: rest =>
    if b0 < 0x80 then some (b0, rest)
    else if b0 < 0xC2 then none
    else if b0 < 0xE0 then
      match rest with
      | b1 :: r1 =>
        if 0x80 ≤ b1 ∧ b1 < 0xC0 then
          some ((b0 - 0xC0) * 0x40 + (b1 - 0x80), r1)
        else none
      | [] => none
    else if b0 < 0xF0 then
      match rest with
      | b1 :: b2 :: r2 =>
        if (0x80 ≤ b1 ∧ b1 < 0xC0) ∧ (0x80 ≤ b2 ∧ b2 < 0xC0)
            ∧ (b0 = 0xE0 → 0xA0 ≤ b1) ∧ (b0 = 0xED → b1 < 0xA0) then
          some ((b0 - 0xE0) * 0x1000 + (b1 - 0x80) * 0x40 + (b2 - 0x80), r2)
        else none
      | _ => none
    else if b0 < 0xF5 then
      match rest with
      | b1 :: b2 :: b3 :: r3 =>
        if (0x80 ≤ b1 ∧ b1 < 0xC0) ∧ (0x80 ≤ b2 ∧ b2 < 0xC0) ∧ (0x80 ≤ b3 ∧ b3 < 0xC0)
            ∧ (b0 = 0xF0 → 0x90 ≤ b1) ∧ (b0 = 0xF4 → b1 < 0x90) then
          some ((b0 - 0xF0) * 0x40000 + (b1 - 0x80) * 0x1000
                  + (b2 - 0x80) * 0x40 + (b3 - 0x80), r3)
        else none
      | _ => none
    else none

/-- Driver for `utf8Decode`, structurally recursive on a fuel bound (any
fuel at least the byte count gives the same result, `utf8DecodeFuel_congr`). -/
def utf8DecodeFuel : Nat → List Nat → Option (List Nat)
  | _, [] => some []
  | 0, _ :: _ => none
  | n + 1, b0 :: rest =>
      match decodeOne (b0 :: rest) with
      | some (c, r) => (utf8DecodeFuel n r).map (fun cs => c :: cs)
      | none => none

def utf8Decode (l : List Nat) : Option (List Nat) := utf8DecodeFuel l.length l

/-- UTF-8 encoding of one scalar value (the canonical shortest form). -/
def utf8EncodeChar (c : Nat) : List Nat :=
  if c < 0x80 then [c]
  else if c < 0x800 then [0xC0 + c / 0x40, 0x80 + c % 0x40]
  else if c < 0x10000 then
    [0xE0 + c / 0x1000, 0x80 + (c / 0x40) % 0x40, 0x80 + c % 0x40]
  else
    [0xF0 + c / 0x40000, 0x80 + (c / 0x1000) % 0x40,
      0x80 + (c / 0x40) % 0x40, 0x80 + c % 0x40]

/-- UTF-8 encoding of a list of scalar values. -/
def utf8Encode : List Nat → List Nat
  | [] => []
  | c :: cs => utf8EncodeChar c ++ utf8Encode cs

/-! ## User events -/

/-- `tabby_db::UserEventDAO` (fields used by the translator); `payload` is
the raw byte vector (`Vec<u8>`). -/
structure UserEventDAO where
  id : Int
  user_id : Int
  kind : String
  created_at : Int
  payload : List Nat
deriving DecidableEq, Repr

/-- `user_event::UserEvent`; `payload` is the text decoded from the bytes,
as its list of Unicode scalar values. -/
structure UserEvent where
  id : String
  user_id : String
  kind : EventKind
  created_at : Int
  payload : List Nat
deriving DecidableEq, Repr

/-- `impl TryFrom<UserEventDAO> for UserEvent`: the `kind` string is parsed
through the registry and the payload bytes through `String::from_utf8`
(strict UTF-8 validation, no lossy substitution); either failure aborts the
conversion, the field order of the source making the kind error win. -/
def userEventOfUserEventDAO (value : UserEventDAO) : Except DaoError UserEvent :=
  match EventKind.from_enum_str value.kind with
  | Except.error m => Except.error (DaoError.invalidEnumValue m)
  | Except.ok kind =>
      match utf8Decode value.payload with
      | none => Except.error DaoError.encodingFailure
      | some text =>
          Except.ok
            { id := asId value.id
              user_id := asId value.user_id
              kind := kind
              created_at := value.created_at
              payload := text }

/-! ## Attachment documents

The three parallel shapes of the closed attachment sum type.  The storage
shape (`tabby_db::Attachment*Doc`) carries an optional raw author-id string;
the thread-facing shape carries an optional resolved `UserValue`.  `UserValue`
has exactly one variant, `UserSecured`; of the user record only the `id`
(a `juniper::ID`, i.e. a string) is touched by these conversions, so only it
is modelled. -/

/-- `interface::UserSecured` (the one field these conversions read). -/
structure UserSecured where
  id : String
deriving DecidableEq, Repr

/-- `interface::UserValue`. -/
inductive UserValue where
  | UserSecured (user : UserSecured)
deriving DecidableEq, Repr

/-- The author projection `|x| match x { UserValue::UserSecured(user) =>
user.id.to_string() }` used by the thread→storage and retrieval→storage
conversions. -/
def userValueIdString : UserValue → String
  | UserValue.UserSecured user => user.id

/-- `tabby_db::AttachmentWebDoc`. -/
structure AttachmentWebDoc where
  title : String
  link : String
  content : String
deriving DecidableEq, Repr

/-- `tabby_db::AttachmentIssueDoc`. -/
structure AttachmentIssueDoc where
  title : String
  link : String
  author_user_id : Option String
  body : String
  closed : Bool
deriving DecidableEq, Repr

/-- `tabby_db::AttachmentPullDoc`. -/
structure AttachmentPullDoc where
  title : String
  link : String
  author_user_id : Option String
  body : String
  diff : String
  merged : Bool
deriving DecidableEq, Repr

/-- `tabby_db::AttachmentCommitDoc`. -/
structure AttachmentCommitDoc where
  sha : String
  message : String
  author_user_id : Option String
  author_at : Int
deriving DecidableEq, Repr

/-- `tabby_db::AttachmentPageDoc`. -/
structure AttachmentPageDoc where
  page_link : String
  title : String
  content : String
deriving DecidableEq, Repr

/-- `tabby_db::AttachmentIngestedDoc`. -/
structure AttachmentIngestedDoc where
  id : String
  link : String
  title : String
  body : String
deriving DecidableEq, Repr

/-- `tabby_db::AttachmentDoc`: the storage shape of the sum type. -/
inductive AttachmentDoc where
  | Web (web : AttachmentWebDoc)
  | Issue (issue : AttachmentIssueDoc)
  | Pull (pull : AttachmentPullDoc)
  | Commit (commit : AttachmentCommitDoc)
  | Page (page : AttachmentPageDoc)
  | Ingested (ingested : AttachmentIngestedDoc)
deriving DecidableEq, Repr

/-- `thread::MessageAttachmentWebDoc`. -/
structure MessageAttachmentWebDoc where
  title : String
  link : String
  content : String
deriving DecidableEq, Repr

/-- `thread::MessageAttachmentIssueDoc`. -/
structure MessageAttachmentIssueDoc where
  title : String
  link : String
  author : Option UserValue
  body : String
  closed : Bool
deriving DecidableEq, Repr

/-- `thread::MessageAttachmentPullDoc`. -/
structure MessageAttachmentPullDoc where
  title : String
  link : String
  author : Option UserValue
  body : String
  patch : String
  merged : Bool
deriving DecidableEq, Repr

/-- `thread::MessageAttachmentCommitDoc`. -/
structure MessageAttachmentCommitDoc where
  sha : String
  message : String
  author : Option UserValue
  author_at : Int
deriving DecidableEq, Repr

/-- `thread::MessageAttachmentPageDoc`. -/
structure MessageAttachmentPageDoc where
  link : String
  title : String
  content : String
deriving DecidableEq, Repr

/-- `thread::MessageAttachmentIngestedDoc`. -/
structure MessageAttachmentIngestedDoc where
  id : String
  link : String
  title : String
  body : String
deriving DecidableEq, Repr

/-- `thread::MessageAttachmentDoc`: the thread-facing shape. -/
inductive MessageAttachmentDoc where
  | Web (web : MessageAttachmentWebDoc)
  | Issue (issue : MessageAttachmentIssueDoc)
  | Pull (pull : MessageAttachmentPullDoc)
  | Commit (commit : MessageAttachmentCommitDoc)
  | Page (page : MessageAttachmentPageDoc)
  | Ingested (ingested : MessageAttachmentIngestedDoc)
deriving DecidableEq, Repr

/-- `from_thread_message_attachment_document(doc, author)`: storage → thread,
with the resolved author supplied by the caller (identity resolution is done
outside this layer). -/
def from_thread_message_attachment_document
    (doc : AttachmentDoc) (author : Option UserValue) : MessageAttachmentDoc :=
  match doc with
  | AttachmentDoc.Web web =>
      MessageAttachmentDoc.Web
        { title := web.title, link := web.link, content := web.content }
  | AttachmentDoc.Issue issue =>
      MessageAttachmentDoc.Issue
        { title := issue.title, link := issue.link, author := author
          body := issue.body, closed := issue.closed }
  | AttachmentDoc.Pull pull =>
      MessageAttachmentDoc.Pull
        { title := pull.title, link := pull.link, author := author
          body := pull.body, patch := pull.diff, merged := pull.merged }
  | AttachmentDoc.Commit commit =>
      MessageAttachmentDoc.Commit
        { sha := commit.sha, message := commit.message, author := author
          author_at := commit.author_at }
  | AttachmentDoc.Page page =>
      MessageAttachmentDoc.Page
        { link := page.page_link, title := page.title, content := page.content }
  | AttachmentDoc.Ingested ingested =>
      MessageAttachmentDoc.Ingested
        { id := ingested.id, link := ingested.link
          title := ingested.title, body := ingested.body }

/-- `impl From<&thread::MessageAttachmentDoc> for AttachmentDoc`:
thread → storage, projecting the resolved author back to its raw id. -/
def attachmentDocOfMessageAttachmentDoc (val : MessageAttachmentDoc) : AttachmentDoc :=
  match val with
  | MessageAttachmentDoc.Web v =>
      AttachmentDoc.Web { title := v.title, link := v.link, content := v.content }
  | MessageAttachmentDoc.Issue v =>
      AttachmentDoc.Issue
        { title := v.title, link := v.link
          author_user_id := v.author.map userValueIdString
          body := v.body, closed := v.closed }
  | MessageAttachmentDoc.Pull v =>
      AttachmentDoc.Pull
        { title := v.title, link := v.link
          author_user_id := v.author.map userValueIdString
          body := v.body, diff := v.patch, merged := v.merged }
  | MessageAttachmentDoc.Commit v =>
      AttachmentDoc.Commit
        { sha := v.sha, message := v.message
          author_user_id := v.author.map userValueIdString
          author_at := v.author_at }
  | MessageAttachmentDoc.Page v =>
      AttachmentDoc.Page
        { page_link := v.link, title := v.title, content := v.content }
  | MessageAttachmentDoc.Ingested v =>
      AttachmentDoc.Ingested
        { id := v.id, link := v.link, title := v.title, body := v.body }

/-- Replaces the raw author-id field of a storage attachment document, for
the kinds that carry one (Issue, Pull, Commit); identity on the others. -/
def setDocAuthorUserId (doc : AttachmentDoc) (a : Option String) : AttachmentDoc :=
  match doc with
  | AttachmentDoc.Web web => AttachmentDoc.Web web
  | AttachmentDoc.Issue issue => AttachmentDoc.Issue { issue with author_user_id := a }
  | AttachmentDoc.Pull pull => AttachmentDoc.Pull { pull with author_user_id := a }
  | AttachmentDoc.Commit commit => AttachmentDoc.Commit { commit with author_user_id := a }
  | AttachmentDoc.Page page => AttachmentDoc.Page page
  | AttachmentDoc.Ingested ingested => AttachmentDoc.Ingested ingested

/-! ## Attachment code (line-number width crossings) -/

/-- `tabby_db::AttachmentCode`; `start_line` is `Option<usize>`. -/
structure AttachmentCode where
  git_url : String
  commit : String
  filepath : String
  language : String
  content : String
  start_line : Option Nat
deriving DecidableEq, Repr

/-- `thread::MessageAttachmentCode`; `start_line` is `Option<i32>`. -/
structure MessageAttachmentCode where
  git_url : String
  commit : String
  filepath : String
  language : String
  content : String
  start_line : Option Int
deriving DecidableEq, Repr

/-- `retrieval::AttachmentCode`; `start_line` is `Option<i32>`. -/
structure RetrievalAttachmentCode where
  git_url : String
  commit : String
  filepath : String
  language : String
  content : String
  start_line : Option Int
deriving DecidableEq, Repr

/-- `impl From<AttachmentCode> for thread::MessageAttachmentCode`:
`start_line: value.start_line.map(|x| x as i32)`. -/
def messageAttachmentCodeOfAttachmentCode (value : AttachmentCode) : MessageAttachmentCode :=
  { git_url := value.git_url
    commit := value.commit
    filepath := value.filepath
    language := value.language
    content := value.content
    start_line := value.start_line.map usizeAsI32 }

/-- `impl From<&thread::MessageAttachmentCode> for AttachmentCode`:
`start_line: val.start_line.map(|x| x as usize)`. -/
def attachmentCodeOfMessageAttachmentCode (val : MessageAttachmentCode) : AttachmentCode :=
  { git_url := val.git_url
    commit := val.commit
    filepath := val.filepath
    language := val.language
    content := val.content
    start_line := val.start_line.map i32AsUsize }

/-- `impl From<&retrieval::AttachmentCode> for AttachmentCode`:
`start_line: value.start_line.map(|x| x as usize)`. -/
def attachmentCodeOfRetrievalAttachmentCode (value : RetrievalAttachmentCode) : AttachmentCode :=
  { git_url := value.git_url
    commit := value.commit
    filepath := value.filepath
    language := value.language
    content := value.content
    start_line := value.start_line.map i32AsUsize }

/-! ## Auxiliary predicates and concrete sample inputs -/

/-- `hasPrefixChars hay needle`: `needle` is a prefix of `hay`. -/
def hasPrefixChars : List Char → List Char → Bool
  | _, [] => true
  | [], _ :: _ => false
  | a :: hl, b :: nl => a == b && hasPrefixChars hl nl

/-- `containsChars hay needle`: `needle` occurs contiguously in `hay` —
used to formalise "the error message names the offending string". -/
def containsChars : List Char → List Char → Bool
  | [], needle => needle.isEmpty
  | a :: rest, needle => hasPrefixChars (a :: rest) needle || containsChars rest needle

/-- Sample integration row: `error` present and `synced` set. -/
def c3dao : IntegrationDAO :=
  { id := 1, kind := "github", display_name := "d", access_token := "t"
    api_base := none, created_at := 0, updated_at := 0
    synced := true, error := some "boom" }

/-- The domain record `c3dao` converts to. -/
def c3result : Integration :=
  { id := asId 1, kind := IntegrationKind.Github, display_name := "d"
    access_token := "t", api_base := none, created_at := 0, updated_at := 0
    status := IntegrationStatus.Failed, message := some "boom" }

/-- Sample issue attachment whose raw author id matches `c4author`. -/
def c4doc : AttachmentDoc :=
  AttachmentDoc.Issue
    { title := "t", link := "l", author_user_id := some "user-1"
      body := "b", closed := false }

/-- Sample resolved author with id `"user-1"`. -/
def c4author : Option UserValue :=
  some (UserValue.UserSecured { id := "user-1" })

/-- Sample code attachment whose `start_line` does not fit in `i32`. -/
def c5code : AttachmentCode :=
  { git_url := "g", commit := "c", filepath := "f", language := "rust"
    content := "fn", start_line := some (2 ^ 31) }

/-- Sample retrieval code attachment with a negative `start_line`. -/
def c5retr : RetrievalAttachmentCode :=
  { git_url := "g", commit := "c", filepath := "f", language := "rust"
    content := "fn", start_line := some (-1) }

/-- Sample user event row whose payload is the UTF-8 bytes of `"click"`. -/
def c8dao : UserEventDAO :=
  { id := 1, user_id := 2, kind := "view", created_at := 7
    payload := [0x63, 0x6C, 0x69, 0x63, 0x6B] }

/-- Sample invitation row whose id does not fit in `i32`. -/
def c10dao : InvitationDAO :=
  { id := 2 ^ 31, email := "e@x", code := "c", created_at := 0 }

/-! ## Supporting lemmas -/

/-! ### Codec lemmas -/

theorem hashIdsDecodeAux_replicate (n : Nat) :
    ∀ (rest : List Char) (acc : Nat),
      hashIdsDecodeAux (List.replicate n 'x' ++ '.' :: rest) acc
        = (hashIdsDecodeAux rest 0).map (fun l => (acc + n) :: l) := by
  induction n with
  | zero =>
      intro rest acc
      simp [hashIdsDecodeAux]
  | succ m ih =>
      intro rest acc
      show hashIdsDecodeAux ('x' :: (List.replicate m 'x' ++ '.' :: rest)) acc = _
      rw [hashIdsDecodeAux, if_pos rfl, ih rest (acc + 1)]
      have h2 : acc + 1 + m = acc + (m + 1) := by omega
      rw [h2]

/-- Round trip of the modelled codec: decoding an encoded sequence returns
exactly that sequence. -/
theorem hashIdsDecode_encode (l : List Nat) :
    hashIdsDecode (hashIdsEncode l) = some l := by
  induction l with
  | nil => rfl
  | cons n rest ih =>
      show hashIdsDecodeAux (List.replicate n 'x' ++ '.' :: hashIdsEncode rest) 0 = _
      rw [hashIdsDecodeAux_replicate]
      show (hashIdsDecode (hashIdsEncode rest)).map _ = _
      rw [ih]
      simp

theorem hashIdsDecodeAux_exact :
    ∀ (t : List Char) (acc : Nat) (l : List Nat),
      hashIdsDecodeAux t acc = some l →
        (t = [] ∧ acc = 0 ∧ l = []) ∨
        (∃ m ls, l = (acc + m) :: ls ∧
          t = List.replicate m 'x' ++ '.' :: hashIdsEncode ls) := by
  intro t
  induction t with
  | nil =>
      intro acc l h
      cases acc with
      | zero =>
          left
          refine ⟨rfl, rfl, ?_⟩
          simpa [hashIdsDecodeAux] using h.symm
      | succ k => exact absurd h (by simp [hashIdsDecodeAux])
  | cons c rest ih =>
      intro acc l h
      rw [hashIdsDecodeAux] at h
      by_cases hx : c = 'x'
      · rw [if_pos hx] at h
        rcases ih (acc + 1) l h with ⟨_, hacc, _⟩ | ⟨m, ls, hl, hrest⟩
        · omega
        · right
          refine ⟨m + 1, ls, ?_, ?_⟩
          · rw [hl]; congr 1; omega
          · rw [hx, hrest]
            rfl
      · rw [if_neg hx] at h
        by_cases hd : c = '.'
        · rw [if_pos hd] at h
          rcases hmap : hashIdsDecodeAux rest 0 with _ | ls
          · rw [hmap] at h; simp at h
          · rw [hmap] at h
            have h3 : acc :: ls = l := by simpa using h
            rcases ih 0 ls hmap with ⟨hrest, _, hls⟩ | ⟨m, ls2, hls, hrest⟩
            · right
              refine ⟨0, [], ?_, ?_⟩
              · rw [← h3]; simp [hls]
              · rw [hd, hrest]; rfl
            · right
              simp only [Nat.zero_add] at hls
              refine ⟨0, ls, ?_, ?_⟩
              · rw [← h3]; simp
              · rw [hd, hrest, hls]
                rfl
        · rw [if_neg hd] at h
          exact absurd h (by simp)

/-- Exactness of the modelled codec: a successful decode comes only from a
token that `hashIdsEncode` produces, and returns exactly its payload. -/
theorem hashIdsEncode_of_decode (t : List Char) (l : List Nat)
    (h : hashIdsDecode t = some l) : hashIdsEncode l = t := by
  rcases hashIdsDecodeAux_exact t 0 l h with ⟨ht, _, hl⟩ | ⟨m, ls, hl, ht⟩
  · rw [ht, hl]; rfl
  · simp only [Nat.zero_add] at hl
    rw [ht, hl]
    rfl

theorem decodeOne_length :
    ∀ (l : List Nat) (c : Nat) (rest : List Nat),
      decodeOne l = some (c, rest) → rest.length < l.length := by
  intro l c rest h
  unfold decodeOne at h
  repeat' split at h
  all_goals simp_all
  all_goals omega

set_option maxRecDepth 4000 in
theorem decodeOne_exact (l : List Nat) (c : Nat) (rest : List Nat)
    (h : decodeOne l = some (c, rest)) :
    ValidScalar c ∧ utf8EncodeChar c ++ rest = l := by
  unfold decodeOne at h
  repeat' split at h
  all_goals (try (cases h))
  · refine ⟨⟨by omega, by omega⟩, ?_⟩
    rw [utf8EncodeChar, if_pos (by omega)]
    rfl
  · refine ⟨⟨by omega, by omega⟩, ?_⟩
    rw [utf8EncodeChar, if_neg (by omega), if_pos (by omega)]
    simp only [List.cons_append, List.nil_append, List.cons.injEq]
    refine ⟨by omega, by omega, trivial⟩
  · refine ⟨⟨by omega, by omega⟩, ?_⟩
    rw [utf8EncodeChar, if_neg (by omega), if_neg (by omega), if_pos (by omega)]
    simp only [List.cons_append, List.nil_append, List.cons.injEq]
    refine ⟨by omega, by omega, by omega, trivial⟩
  · refine ⟨⟨by omega, by omega⟩, ?_⟩
    rw [utf8EncodeChar, if_neg (by omega), if_neg (by omega), if_neg (by omega)]
    simp only [List.cons_append, List.nil_append, List.cons.injEq]
    refine ⟨by omega, by omega, by omega, by omega, trivial⟩

set_option maxRecDepth 4000 in
theorem decodeOne_encodeChar (c : Nat) (tail : List Nat) (hv : ValidScalar c) :
    decodeOne (utf8EncodeChar c ++ tail) = some (c, tail) := by
  rcases hv with ⟨hlt, hsur⟩
  have hs2 : c < 0xD800 ∨ 0xE000 ≤ c := by
    by_contra hc
    push_neg at hc
    exact hsur ⟨by omega, by omega⟩
  by_cases h1 : c < 0x80
  · rw [utf8EncodeChar, if_pos h1]
    show decodeOne (c :: tail) = some (c, tail)
    simp only [decodeOne, if_pos h1]
  · by_cases h2 : c < 0x800
    · rw [utf8EncodeChar, if_neg h1, if_pos h2]
      show decodeOne ((0xC0 + c / 0x40) :: (0x80 + c % 0x40) :: tail) = some (c, tail)
      simp only [decodeOne]
      rw [if_neg (by omega), if_neg (by omega), if_pos (by omega), if_pos (by omega)]
      simp only [Option.some.injEq, Prod.mk.injEq]
      exact ⟨by omega, trivial⟩
    · by_cases h3 : c < 0x10000
      · rw [utf8EncodeChar, if_neg h1, if_neg h2, if_pos h3]
        show decodeOne ((0xE0 + c / 0x1000) :: (0x80 + (c / 0x40) % 0x40)
              :: (0x80 + c % 0x40) :: tail) = some (c, tail)
        simp only [decodeOne]
        rw [if_neg (by omega), if_neg (by omega), if_neg (by omega), if_pos (by omega),
          if_pos (by omega)]
        simp only [Option.some.injEq, Prod.mk.injEq]
        exact ⟨by omega, trivial⟩
      · rw [utf8EncodeChar, if_neg h1, if_neg h2, if_neg h3]
        show decodeOne ((0xF0 + c / 0x40000) :: (0x80 + (c / 0x1000) % 0x40)
              :: (0x80 + (c / 0x40) % 0x40) :: (0x80 + c % 0x40) :: tail) = some (c, tail)
        simp only [decodeOne]
        rw [if_neg (by omega), if_neg (by omega), if_neg (by omega), if_neg (by omega),
          if_pos (by omega), if_pos (by omega)]
        simp only [Option.some.injEq, Prod.mk.injEq]
        exact ⟨by omega, trivial⟩

theorem utf8DecodeFuel_congr :
    ∀ (n m : Nat) (l : List Nat), l.length ≤ n → l.length ≤ m →
      utf8DecodeFuel n l = utf8DecodeFuel m l := by
  intro n
  induction n with
  | zero =>
      intro m l hn hm
      have : l = [] := by cases l <;> simp_all
      subst this
      cases m <;> rfl
  | succ k ih =>
      intro m l hn hm
      cases l with
      | nil => cases m <;> rfl
      | cons b bs =>
          cases m with
          | zero => simp at hm
          | succ m2 =>
              simp only [utf8DecodeFuel]
              cases hd : decodeOne (b :: bs) with
              | none => rfl
              | some pr =>
                  obtain ⟨c, r⟩ := pr
                  have hlen := decodeOne_length _ _ _ hd
                  simp only [List.length_cons] at hn hm hlen
                  show (utf8DecodeFuel k r).map (fun cs => c :: cs)
                    = (utf8DecodeFuel m2 r).map (fun cs => c :: cs)
                  rw [ih m2 r (by omega) (by omega)]

theorem utf8Decode_nil : utf8Decode [] = some [] := rfl

theorem utf8Decode_eq_some (l : List Nat) (c : Nat) (r : List Nat)
    (h : decodeOne l = some (c, r)) :
    utf8Decode l = (utf8Decode r).map (fun cs => c :: cs) := by
  cases l with
  | nil => simp [decodeOne] at h
  | cons b bs =>
      have hlen := decodeOne_length _ _ _ h
      simp only [List.length_cons] at hlen
      show utf8DecodeFuel (b :: bs).length (b :: bs) = _
      simp only [List.length_cons, utf8DecodeFuel]
      rw [h]
      show (utf8DecodeFuel bs.length r).map (fun cs => c :: cs)
        = (utf8DecodeFuel r.length r).map (fun cs => c :: cs)
      rw [utf8DecodeFuel_congr bs.length r.length r (by omega) (Nat.le_refl _)]

theorem utf8Decode_eq_none (l : List Nat) (h : decodeOne l = none) (hne : l ≠ []) :
    utf8Decode l = none := by
  cases l with
  | nil => exact absurd rfl hne
  | cons b bs =>
      show utf8DecodeFuel (b :: bs).length (b :: bs) = none
      simp only [List.length_cons, utf8DecodeFuel]
      rw [h]

theorem utf8Decode_utf8Encode (cps : List Nat) (h : ∀ c ∈ cps, ValidScalar c) :
    utf8Decode (utf8Encode cps) = some cps := by
  induction cps with
  | nil => exact utf8Decode_nil
  | cons c cs ih =>
      have hc : ValidScalar c := h c (by simp)
      have hrec := ih (fun x hx => h x (by simp [hx]))
      show utf8Decode (utf8EncodeChar c ++ utf8Encode cs) = some (c :: cs)
      rw [utf8Decode_eq_some _ c (utf8Encode cs) (decodeOne_encodeChar c _ hc), hrec]
      rfl

theorem utf8Decode_exact_aux (n : Nat) :
    ∀ (l cps : List Nat), l.length ≤ n → utf8Decode l = some cps →
      utf8Encode cps = l ∧ (∀ c ∈ cps, ValidScalar c) := by
  induction n with
  | zero =>
      intro l cps hl h
      have hnil : l = [] := by cases l <;> simp_all
      subst hnil
      rw [utf8Decode_nil] at h
      cases h
      exact ⟨rfl, by simp⟩
  | succ m ih =>
      intro l cps hl h
      cases l with
      | nil =>
          rw [utf8Decode_nil] at h
          cases h
          exact ⟨rfl, by simp⟩
      | cons b bs =>
          cases hd : decodeOne (b :: bs) with
          | none =>
              rw [utf8Decode_eq_none _ hd (by simp)] at h
              cases h
          | some pr =>
              obtain ⟨c, r⟩ := pr
              rw [utf8Decode_eq_some _ _ _ hd] at h
              cases hr : utf8Decode r with
              | none => rw [hr] at h; cases h
              | some cs =>
                  rw [hr] at h
                  have hcps : c :: cs = cps := by simpa using h
                  have hlen := decodeOne_length _ _ _ hd
                  have hrest := ih r cs (by simp only [List.length_cons] at hlen hl; omega) hr
                  have hone := decodeOne_exact _ _ _ hd
                  subst hcps
                  constructor
                  · show utf8EncodeChar c ++ utf8Encode cs = b :: bs
                    rw [hrest.1]
                    exact hone.2
                  · intro x hx
                    rcases List.mem_cons.mp hx with hx | hx
                    · rw [hx]; exact hone.1
                    · exact hrest.2 x hx

theorem utf8Decode_exact (l cps : List Nat) (h : utf8Decode l = some cps) :
    utf8Encode cps = l ∧ (∀ c ∈ cps, ValidScalar c) :=
  utf8Decode_exact_aux l.length l cps (Nat.le_refl _) h

/-- The `i64` codec wrapper is a round trip on the representable `i64` range
(shared backbone of the claims about `AsID` / `AsRowid`). -/
theorem asRowid_asId (x : Int) (h1 : -(2 ^ 63) ≤ x) (h2 : x < 2 ^ 63) :
    asRowid (asId x) = Except.ok x := by
  show (match (hashIdsDecode (hashIdsEncode [i64AsU64 x])).bind
      (fun l => l.head?.map u64AsI64) with
    | some v => Except.ok v
    | none => Except.error CoreError.InvalidID) = Except.ok x
  rw [hashIdsDecode_encode]
  show Except.ok (u64AsI64 (i64AsU64 x)) = Except.ok x
  congr 1
  unfold u64AsI64 i64AsU64
  split_ifs <;> omega

/-- `i64AsI32` fixes exactly the `i32` range. -/
theorem i64AsI32_eq_self_iff (x : Int) :
    i64AsI32 x = x ↔ -(2 ^ 31) ≤ x ∧ x < 2 ^ 31 := by
  unfold i64AsI32
  split_ifs <;> constructor <;> intro <;> omega

/-! ## Claims -/

/-- **C1**: identifier codec round trip — for every representable 64-bit row
identifier `id`, decoding the token produced by encoding `id` (`i64::as_id`
followed by `as_rowid` on the resulting `juniper::ID`) returns `Ok(id)`,
the exact original integer. -/
theorem id_codec_round_trip (id : Int) (h1 : -(2 ^ 63) ≤ id) (h2 : id < 2 ^ 63) :
    asRowid (asId id) = Except.ok id :=
  asRowid_asId id h1 h2

theorem id_codec_round_trip_witness :
    -(2 ^ 63) ≤ (3 : Int) ∧ (3 : Int) < 2 ^ 63 ∧ asRowid (asId 3) = Except.ok 3 :=
  ⟨by decide, by decide, id_codec_round_trip 3 (by decide) (by decide)⟩

/-- **C2**: enum round trip — for every covered enum kind (`EventKind`,
`IntegrationKind`, `Encryption`, `OAuthProvider`, `LdapEncryptionKind`,
`AuthMethod`, `thread::Role`, `NotificationRecipient`) and every variant `e`,
`from_enum_str (as_enum_str e) = Ok e`. -/
theorem enum_round_trip :
    (∀ e : EventKind, EventKind.from_enum_str (EventKind.as_enum_str e) = Except.ok e)
    ∧ (∀ e : IntegrationKind,
        IntegrationKind.from_enum_str (IntegrationKind.as_enum_str e) = Except.ok e)
    ∧ (∀ e : Encryption, Encryption.from_enum_str (Encryption.as_enum_str e) = Except.ok e)
    ∧ (∀ e : OAuthProvider,
        OAuthProvider.from_enum_str (OAuthProvider.as_enum_str e) = Except.ok e)
    ∧ (∀ e : LdapEncryptionKind,
        LdapEncryptionKind.from_enum_str (LdapEncryptionKind.as_enum_str e) = Except.ok e)
    ∧ (∀ e : AuthMethod, AuthMethod.from_enum_str (AuthMethod.as_enum_str e) = Except.ok e)
    ∧ (∀ e : Role, Role.from_enum_str (Role.as_enum_str e) = Except.ok e)
    ∧ (∀ e : NotificationRecipient,
        NotificationRecipient.from_enum_str (NotificationRecipient.as_enum_str e)
          = Except.ok e) := by
  refine ⟨?_, ?_, ?_, ?_, ?_, ?_, ?_, ?_⟩ <;> intro e <;> cases e <;> decide

/-- **C3**: integration status derivation — a successful `IntegrationDAO`
conversion yields status `Failed` whenever the `error` field is `Some`
(regardless of `synced`), `Ready` when `synced` and `error` is `None`, and
`Pending` when not `synced` and `error` is `None`. -/
theorem integration_status_derivation (value : IntegrationDAO) (i : Integration)
    (h : integrationOfIntegrationDAO value = Except.ok i) :
    (∀ msg, value.error = some msg → i.status = IntegrationStatus.Failed)
    ∧ (value.synced = true → value.error = none → i.status = IntegrationStatus.Ready)
    ∧ (value.synced = false → value.error = none → i.status = IntegrationStatus.Pending) := by
  simp only [integrationOfIntegrationDAO] at h
  cases hk : IntegrationKind.from_enum_str value.kind with
  | error m => rw [hk] at h; cases h
  | ok kind =>
      rw [hk] at h
      cases h
      refine ⟨?_, ?_, ?_⟩
      · intro msg hmsg
        cases hs : value.synced <;> simp [hmsg, hs]
      · intro hs he
        simp [hs, he]
      · intro hs he
        simp [hs, he]

theorem integration_status_derivation_witness :
    c3result.status = IntegrationStatus.Failed :=
  (integration_status_derivation c3dao c3result (by decide)).1 "boom" (by decide)

/-- **C9**: settings projection — from one `ServerSettingDAO` row, the
network projection populates exactly the external-url field and the security
projection exactly the three security fields; each projection is unaffected
by the other projection's fields, and both are taken simultaneously from the
same row. -/
theorem settings_projection (value : ServerSettingDAO) (l : List String)
    (t p : Bool) (u : String) :
    networkSettingOfServerSettingDAO value = { external_url := value.network_external_url }
    ∧ securitySettingOfServerSettingDAO value =
        { allowed_register_domain_list := value.security_allowed_register_domain_list
          disable_client_side_telemetry := value.security_disable_client_side_telemetry
          disable_password_login := value.security_disable_password_login }
    ∧ networkSettingOfServerSettingDAO
        { value with
          security_allowed_register_domain_list := l
          security_disable_client_side_telemetry := t
          security_disable_password_login := p }
        = networkSettingOfServerSettingDAO value
    ∧ securitySettingOfServerSettingDAO { value with network_external_url := u }
        = securitySettingOfServerSettingDAO value :=
  ⟨rfl, rfl, rfl, rfl⟩

/-- **C10**: the invitation translator casts the 64-bit row id through `i32`
before encoding, so the encoded external identifier decodes to
`i64AsI32 val.id` — equal to the row id exactly when the id fits in the
signed 32-bit range, and a different integer otherwise. -/
theorem invitation_id_i32_cast (val : InvitationDAO) :
    (invitationOfInvitationDAO val).id = asId (i64AsI32 val.id)
    ∧ asRowid (invitationOfInvitationDAO val).id = Except.ok (i64AsI32 val.id)
    ∧ (asRowid (invitationOfInvitationDAO val).id = Except.ok val.id ↔
        -(2 ^ 31) ≤ val.id ∧ val.id < 2 ^ 31) := by
  have hr : -(2 ^ 63) ≤ i64AsI32 val.id ∧ i64AsI32 val.id < 2 ^ 63 := by
    unfold i64AsI32
    split_ifs <;> omega
  have hmain : asRowid (asId (i64AsI32 val.id)) = Except.ok (i64AsI32 val.id) :=
    asRowid_asId _ hr.1 hr.2
  refine ⟨rfl, hmain, ?_⟩
  rw [show (invitationOfInvitationDAO val).id = asId (i64AsI32 val.id) from rfl, hmain]
  constructor
  · intro he
    have h2 : i64AsI32 val.id = val.id := by
      injection he
    exact (i64AsI32_eq_self_iff val.id).mp h2
  · intro hrange
    rw [(i64AsI32_eq_self_iff val.id).mpr hrange]

theorem invitation_id_i32_cast_witness :
    asRowid (invitationOfInvitationDAO c10dao).id = Except.ok (-(2 ^ 31) : Int)
    ∧ asRowid (invitationOfInvitationDAO c10dao).id ≠ Except.ok c10dao.id := by
  have h := invitation_id_i32_cast c10dao
  constructor
  · rw [h.2.1]
    decide
  · exact fun he => absurd (h.2.2.mp he) (by decide)

/-- **C4**: attachment document round trip — for each of the six attachment
kinds, converting a storage `AttachmentDoc` to the thread-facing shape with
a supplied resolved author and back reproduces every kind-specific field
(the raw author field becoming the supplied author's id), and when the
supplied resolved author's id string equals the original raw
`author_user_id` the whole document round-trips unchanged. -/
theorem attachment_doc_round_trip (doc : AttachmentDoc) (author : Option UserValue) :
    attachmentDocOfMessageAttachmentDoc (from_thread_message_attachment_document doc author)
      = setDocAuthorUserId doc (author.map userValueIdString)
    ∧ (setDocAuthorUserId doc (author.map userValueIdString) = doc →
        attachmentDocOfMessageAttachmentDoc (from_thread_message_attachment_document doc author)
          = doc) := by
  have h1 : attachmentDocOfMessageAttachmentDoc
      (from_thread_message_attachment_document doc author)
      = setDocAuthorUserId doc (author.map userValueIdString) := by
    cases doc <;> rfl
  exact ⟨h1, fun h2 => h1.trans h2⟩

theorem attachment_doc_round_trip_witness :
    attachmentDocOfMessageAttachmentDoc
      (from_thread_message_attachment_document c4doc c4author) = c4doc :=
  (attachment_doc_round_trip c4doc c4author).2 (by decide)

/-- **C5 counterexample**: the storage→thread code conversion does not fail
on a `start_line` that does not fit in `i32`; it silently wraps
`2^31` to `-2^31`. -/
theorem attachment_code_overflow_counterexample :
    ¬ ((2 ^ 31 : Nat) < 2 ^ 31)
    ∧ (messageAttachmentCodeOfAttachmentCode c5code).start_line = some (-(2 ^ 31) : Int)
    ∧ (messageAttachmentCodeOfAttachmentCode c5code).start_line
        ≠ some ((2 ^ 31 : Nat) : Int) := by
  refine ⟨by decide, by decide, by decide⟩

/-- **C5 (amended)**: the `start_line` width crossings are total and wrap —
usize→i32 truncates to the low 32 bits read as two's complement, i32→usize
sign-extends modulo `2^64`; the value is preserved exactly when it fits the
target width (`< 2^31` going to `i32`, nonnegative going to `usize`), and is
silently changed, never an error, otherwise. -/
theorem attachment_code_start_line_wrapping (v : AttachmentCode)
    (w : MessageAttachmentCode) (r : RetrievalAttachmentCode) (x : Nat) (y : Int) :
    (messageAttachmentCodeOfAttachmentCode v).start_line = v.start_line.map usizeAsI32
    ∧ (attachmentCodeOfMessageAttachmentCode w).start_line = w.start_line.map i32AsUsize
    ∧ (attachmentCodeOfRetrievalAttachmentCode r).start_line = r.start_line.map i32AsUsize
    ∧ (x < 2 ^ 64 → (usizeAsI32 x = (x : Int) ↔ x < 2 ^ 31))
    ∧ (-(2 ^ 31) ≤ y → y < 2 ^ 31 → ((i32AsUsize y : Int) = y ↔ 0 ≤ y)) := by
  refine ⟨rfl, rfl, rfl, ?_, ?_⟩
  · intro hx
    unfold usizeAsI32
    split_ifs <;> constructor <;> intro <;> omega
  · intro hy1 hy2
    unfold i32AsUsize
    constructor <;> intro <;> omega

theorem attachment_code_start_line_wrapping_witness :
    (usizeAsI32 (2 ^ 31) = ((2 ^ 31 : Nat) : Int) ↔ (2 ^ 31 : Nat) < 2 ^ 31)
    ∧ ((i32AsUsize (-1) : Int) = -1 ↔ (0 : Int) ≤ -1) := by
  have h := attachment_code_start_line_wrapping c5code
    (messageAttachmentCodeOfAttachmentCode c5code) c5retr (2 ^ 31) (-1)
  exact ⟨h.2.2.2.1 (by decide), h.2.2.2.2 (by decide) (by decide)⟩

/-- **C6 counterexample**: `OAuthProvider::from_enum_str` on the
out-of-vocabulary string `"foo"` produces the fixed message
`"Invalid OAuth credential type"`, which does not contain the offending
string — refuting "the error names the enum kind and the offending string"
for every kind. -/
theorem enum_error_message_counterexample :
    OAuthProvider.from_enum_str "foo" = Except.error "Invalid OAuth credential type"
    ∧ containsChars "Invalid OAuth credential type".data "foo".data = false := by
  refine ⟨by decide, by decide⟩

/-- **C6 (amended)**: for every enum kind, `from_enum_str` on any string
outside the vocabulary returns an error and never silently defaults to a
variant; the messages for `EventKind`, `IntegrationKind`, `Encryption`,
`AuthMethod`, `thread::Role` and `NotificationRecipient` embed the offending
string (naming the kind as "ProviderKind" for `IntegrationKind` and
"NotificationKind" for `NotificationRecipient`), while `OAuthProvider` and
`LdapEncryptionKind` return fixed messages without the offending string. -/
theorem enum_invalid_string_errors (s : String) :
    (s ∉ ["completion", "chat_completion", "select", "view", "dismiss"] →
      EventKind.from_enum_str s = Except.error (s ++ " is not a valid value for EventKind"))
    ∧ (s ∉ ["github", "gitlab", "github_self_hosted", "gitlab_self_hosted"] →
      IntegrationKind.from_enum_str s
        = Except.error (s ++ " is not a valid value for ProviderKind"))
    ∧ (s ∉ ["starttls", "ssltls", "none"] →
      Encryption.from_enum_str s = Except.error (s ++ " is not a valid value for Encryption"))
    ∧ (s ∉ ["github", "google", "gitlab"] →
      OAuthProvider.from_enum_str s = Except.error "Invalid OAuth credential type")
    ∧ (s ∉ ["none", "starttls", "ldaps"] →
      LdapEncryptionKind.from_enum_str s = Except.error "Invalid Ldap encryption kind")
    ∧ (s ∉ ["none", "plain", "login"] →
      AuthMethod.from_enum_str s = Except.error (s ++ " is not a valid value for AuthMethod"))
    ∧ (s ∉ ["assistant", "user"] →
      Role.from_enum_str s = Except.error (s ++ " is not a valid value for thread::Role"))
    ∧ (s ∉ ["admin", "all_user"] →
      NotificationRecipient.from_enum_str s
        = Except.error (s ++ " is not a valid value for NotificationKind")) := by
  refine ⟨?_, ?_, ?_, ?_, ?_, ?_, ?_, ?_⟩ <;>
    · intro h
      simp only [List.mem_cons, List.not_mem_nil, or_false, not_or] at h
      simp only [EventKind.from_enum_str, IntegrationKind.from_enum_str,
        Encryption.from_enum_str, OAuthProvider.from_enum_str,
        LdapEncryptionKind.from_enum_str, AuthMethod.from_enum_str,
        Role.from_enum_str, NotificationRecipient.from_enum_str]
      split_ifs <;> simp_all

theorem enum_invalid_string_errors_witness :
    EventKind.from_enum_str "zzz"
      = Except.error ("zzz" ++ " is not a valid value for EventKind")
    ∧ OAuthProvider.from_enum_str "zzz" = Except.error "Invalid OAuth credential type" := by
  have h := enum_invalid_string_errors "zzz"
  exact ⟨h.1 (by decide), h.2.2.2.1 (by decide)⟩

/-- **C7**: identifier decode failure — for any string token the codec can
never produce, `as_rowid` returns `Err(CoreError::InvalidID)`, and whenever
it returns `Ok n` the token is one the codec produces and `n` is exactly the
first number encoded in it (never a wrong integer). -/
theorem as_rowid_foreign_token (s : String) :
    ((∀ l, hashIdsEncode l ≠ s.data) → asRowid s = Except.error CoreError.InvalidID)
    ∧ (∀ n, asRowid s = Except.ok n →
        ∃ m rest, hashIdsEncode (m :: rest) = s.data ∧ n = u64AsI64 m) := by
  constructor
  · intro hf
    unfold asRowid
    cases hdec : hashIdsDecode s.data with
    | none => rfl
    | some l => exact absurd (hashIdsEncode_of_decode s.data l hdec) (hf l)
  · intro n hok
    unfold asRowid at hok
    cases hdec : hashIdsDecode s.data with
    | none =>
        rw [hdec] at hok
        cases hok
    | some l =>
        rw [hdec] at hok
        cases l with
        | nil => cases hok
        | cons m rest =>
            have hn : Except.ok (u64AsI64 m) = Except.ok n := hok
            cases hn
            exact ⟨m, rest, hashIdsEncode_of_decode _ _ hdec, rfl⟩

theorem as_rowid_foreign_token_witness :
    asRowid (String.mk ['y']) = Except.error CoreError.InvalidID :=
  (as_rowid_foreign_token (String.mk ['y'])).1 (fun l h => by
    have h2 := hashIdsDecode_encode l
    rw [h] at h2
    have h3 : hashIdsDecode (String.mk ['y']).data = none := by decide
    rw [h3] at h2
    cases h2)

/-- **C8**: user event payload conversion — with a valid `kind`, the
conversion interprets the payload bytes strictly as UTF-8: when decoding
succeeds the resulting payload is exactly the decoded text (whose re-encoding
is the original bytes, so no replacement characters or lossy substitution can
appear), and when the bytes are not valid UTF-8 the whole conversion fails
with the encoding failure. -/
theorem user_event_payload_utf8 (value : UserEventDAO) (k : EventKind)
    (hk : EventKind.from_enum_str value.kind = Except.ok k) :
    (∀ text, utf8Decode value.payload = some text →
        userEventOfUserEventDAO value = Except.ok
          { id := asId value.id, user_id := asId value.user_id, kind := k
            created_at := value.created_at, payload := text }
        ∧ utf8Encode text = value.payload)
    ∧ (utf8Decode value.payload = none →
        userEventOfUserEventDAO value = Except.error DaoError.encodingFailure) := by
  constructor
  · intro text ht
    constructor
    · unfold userEventOfUserEventDAO
      rw [hk, ht]
    · exact (utf8Decode_exact _ _ ht).1
  · intro hn
    unfold userEventOfUserEventDAO
    rw [hk, hn]

theorem user_event_payload_utf8_witness :
    userEventOfUserEventDAO c8dao = Except.ok
      { id := asId 1, user_id := asId 2, kind := EventKind.View, created_at := 7
        payload := [0x63, 0x6C, 0x69, 0x63, 0x6B] }
    ∧ utf8Encode [0x63, 0x6C, 0x69, 0x63, 0x6B] = c8dao.payload :=
  (user_event_payload_utf8 c8dao EventKind.View (by decide)).1
    [0x63, 0x6C, 0x69, 0x63, 0x6B] (by decide)

end TabbySchema
